import Mathlib

/-!
Verification of the token-issuance and authorization-resolution core of the
`backboard-user-service-express` identity provider.

The development shallowly embeds the TypeScript source:
* `src/src/services/authService.ts` — `AuthService.login`, `AuthService.generateToken`
* `src/unnamed/part_013` (`middlewares/auth.ts`) — `authenticateToken`, `requirePermissions`
* `src/unnamed/part_027` (`userAuthService.ts`) — `UserAuthService.resolveUserAuthInfo`
* `src/src/controllers/jwksController.ts` — `JwksController.getJwks`, `pemToJwk`
* `src/src/utils/jwt.ts` — `generateKid`
* `src/src/config/config.ts` — the `jwt` configuration record (plain strings, `""` when unset)

JavaScript string primitives (`startsWith`, `substring`, `endsWith`, `trim`,
`parseInt`) are modelled over the character data of Lean `String`s.  The
external collaborators (the `jsonwebtoken` library, Node's `crypto` module,
bcrypt, the user repository) are modelled from the spec where noted; the
SHA-256 and Base64 algorithms used for the JWKS `kid` are implemented in full.
-/

/-! ## JavaScript string primitives -/

/-- JavaScript `String.prototype.startsWith`: prefix test on the code units. -/
def jsStartsWith (s p : String) : Bool := p.data.isPrefixOf s.data

/-- JavaScript `String.prototype.endsWith`: suffix test on the code units. -/
def jsEndsWith (s p : String) : Bool := p.data.isSuffixOf s.data

/-- JavaScript `s.substring(n)`: drop the first `n` characters. -/
def jsSubstringFrom (s : String) (n : Nat) : String := ⟨s.data.drop n⟩

/-- JavaScript `s.substring(0, n)`: keep the first `n` characters. -/
def jsSubstringTo (s : String) (n : Nat) : String := ⟨s.data.take n⟩

/-- The whitespace characters stripped by JavaScript `trim` / skipped by `parseInt`. -/
def jsIsWs (c : Char) : Bool :=
  c = ' ' || c = '\t' || c = '\n' || c = '\r' || c = '\x0b' || c = '\x0c'

/-- JavaScript `String.prototype.trim`: strip whitespace from both ends. -/
def jsTrim (s : String) : String :=
  ⟨((s.data.dropWhile jsIsWs).reverse.dropWhile jsIsWs).reverse⟩

/-- JavaScript truthiness of an (optional) string: `undefined`/`null` and `""` are falsy. -/
def jsFalsyStr : Option String → Bool
  | none => true
  | some s => s = ""

/-- JavaScript `a || d` for an optional string `a` and default `d`. -/
def jsOr (a : Option String) (d : String) : String :=
  if jsFalsyStr a then d else a.getD d

/-! ## JavaScript `parseInt`

`parseInt` with no radix argument: skip leading whitespace, read an optional
sign, auto-detect a `0x`/`0X` hexadecimal prefix, then consume the longest
prefix of digits of the detected base.  `none` models the JavaScript `NaN`
result (no digits consumed). -/

/-- Digit value of a character in the given base (10 or 16), if it is one. -/
def jsDigitVal (base : Nat) (c : Char) : Option Nat :=
  if '0' ≤ c ∧ c ≤ '9' then some (c.toNat - '0'.toNat)
  else if base = 16 ∧ 'a' ≤ c ∧ c ≤ 'f' then some (c.toNat - 'a'.toNat + 10)
  else if base = 16 ∧ 'A' ≤ c ∧ c ≤ 'F' then some (c.toNat - 'A'.toNat + 10)
  else none

/-- Accumulate the leading digits of `cs` in the given base. -/
def jsReadDigits (base : Nat) : List Char → Nat → Option Nat
  | [], acc => some acc
  | c :: cs, acc =>
    match jsDigitVal base c with
    | some d => jsReadDigits base cs (acc * base + d)
    | none => some acc

/-- Whether the first character of `cs` is a digit of the given base. -/
def jsHasDigit (base : Nat) (cs : List Char) : Bool :=
  match cs with
  | [] => false
  | c :: _ => (jsDigitVal base c).isSome

/-- JavaScript `parseInt(s)` (radix auto-detected); `none` is `NaN`. -/
def jsParseInt (s : String) : Option Int :=
  let cs := s.data.dropWhile jsIsWs
  let (sign, cs1) :=
    match cs with
    | '-' :: rest => ((-1 : Int), rest)
    | '+' :: rest => ((1 : Int), rest)
    | _ => ((1 : Int), cs)
  let (base, cs2) :=
    match cs1 with
    | '0' :: 'x' :: rest => (16, rest)
    | '0' :: 'X' :: rest => (16, rest)
    | _ => (10, cs1)
  if jsHasDigit base cs2 then
    match jsReadDigits base cs2 0 with
    | some v => some (sign * Int.ofNat v)
    | none => none
  else none

/-! ## SHA-256 and Base64

Modelled from the spec: `JwksController.getJwks` and `generateKid` call Node's
`crypto.createHash('sha256').update(pem).digest('base64')`, an external
module; the spec (§4.3, §6) fixes it to the SHA-256 hash of the PEM string,
Base64 encoded.  Both algorithms are implemented here in full over byte lists
(bytes and 32-bit words are `Nat`s reduced mod `2^8` / `2^32`). -/

/-- Truncate to a 32-bit word. -/
def w32 (x : Nat) : Nat := x % 4294967296

/-- Right-rotation of a 32-bit word by `n` places. -/
def rotr32 (n x : Nat) : Nat := w32 ((x >>> n) ||| (x <<< (32 - n)))

/-- The SHA-256 round constants. -/
def sha256K : List Nat :=
  [1116352408, 1899447441, 3049323471, 3921009573, 961987163, 1508970993,
   2453635748, 2870763221, 3624381080, 310598401, 607225278, 1426881987,
   1925078388, 2162078206, 2614888103, 3248222580, 3835390401, 4022224774,
   264347078, 604807628, 770255983, 1249150122, 1555081692, 1996064986,
   2554220882, 2821834349, 2952996808, 3210313671, 3336571891, 3584528711,
   113926993, 338241895, 666307205, 773529912, 1294757372, 1396182291,
   1695183700, 1986661051, 2177026350, 2456956037, 2730485921, 2820302411,
   3259730800, 3345764771, 3516065817, 3600352804, 4094571909, 275423344,
   430227734, 506948616, 659060556, 883997877, 958139571, 1322822218,
   1537002063, 1747873779, 1955562222, 2024104815, 2227730452, 2361852424,
   2428436474, 2756734187, 3204031479, 3329325298]

/-- The SHA-256 initial hash value. -/
def sha256H0 : List Nat :=
  [1779033703, 3144134277, 1013904242, 2773480762, 1359893119, 2600822924,
   528734635, 1541459225]

/-- The eight-byte big-endian encoding of a natural number. -/
def beBytes8 (n : Nat) : List Nat :=
  [7, 6, 5, 4, 3, 2, 1, 0].map (fun i => (n >>> (8 * i)) % 256)

/-- The four-byte big-endian encoding of a 32-bit word. -/
def beBytes4 (n : Nat) : List Nat :=
  [3, 2, 1, 0].map (fun i => (n >>> (8 * i)) % 256)

/-- SHA-256 padding: append `0x80`, zeros, and the 64-bit big-endian bit length. -/
def sha256Pad (msg : List Nat) : List Nat :=
  let len := msg.length
  let zeros := (119 - len % 64) % 64
  msg ++ 128 :: List.replicate zeros 0 ++ beBytes8 (len * 8)

/-- Split a byte list into 64-byte blocks. -/
def chunks64 (l : List Nat) : List (List Nat) :=
  if h : l = [] then []
  else l.take 64 :: chunks64 (l.drop 64)
termination_by l.length
decreasing_by
  simp only [List.length_drop]
  exact Nat.sub_lt (List.length_pos.mpr h) (by decide)

/-- Combine a byte list into 32-bit big-endian words. -/
def toWords32 : List Nat → List Nat
  | b0 :: b1 :: b2 :: b3 :: rest =>
    ((((b0 <<< 8) ||| b1) <<< 8 ||| b2) <<< 8 ||| b3) :: toWords32 rest
  | _ => []

/-- The SHA-256 message schedule: extend 16 words to 64. -/
def sha256Schedule (ws : List Nat) : Array Nat :=
  (List.range 48).foldl
    (fun w j =>
      let i := j + 16
      let x := w.getD (i - 15) 0
      let y := w.getD (i - 2) 0
      let s0 := rotr32 7 x ^^^ rotr32 18 x ^^^ (x >>> 3)
      let s1 := rotr32 17 y ^^^ rotr32 19 y ^^^ (y >>> 10)
      w.push (w32 (w.getD (i - 16) 0 + s0 + w.getD (i - 7) 0 + s1)))
    ws.toArray

/-- One SHA-256 compression step over a 64-word schedule, updating the 8-word state. -/
def sha256Compress (hs : List Nat) (w : Array Nat) : List Nat :=
  let st := (List.range 64).foldl
    (fun (st : Nat × Nat × Nat × Nat × Nat × Nat × Nat × Nat) i =>
      let (a, b, c, d, e, f, g, h) := st
      let s1 := rotr32 6 e ^^^ rotr32 11 e ^^^ rotr32 25 e
      let ch := (e &&& f) ^^^ ((4294967295 ^^^ e) &&& g)
      let t1 := w32 (h + s1 + ch + sha256K.getD i 0 + w.getD i 0)
      let s0 := rotr32 2 a ^^^ rotr32 13 a ^^^ rotr32 22 a
      let maj := (a &&& b) ^^^ (a &&& c) ^^^ (b &&& c)
      let t2 := w32 (s0 + maj)
      (w32 (t1 + t2), a, b, c, w32 (d + t1), e, f, g))
    (hs.getD 0 0, hs.getD 1 0, hs.getD 2 0, hs.getD 3 0,
     hs.getD 4 0, hs.getD 5 0, hs.getD 6 0, hs.getD 7 0)
  let (a, b, c, d, e, f, g, h) := st
  [w32 (hs.getD 0 0 + a), w32 (hs.getD 1 0 + b), w32 (hs.getD 2 0 + c),
   w32 (hs.getD 3 0 + d), w32 (hs.getD 4 0 + e), w32 (hs.getD 5 0 + f),
   w32 (hs.getD 6 0 + g), w32 (hs.getD 7 0 + h)]

/-- The SHA-256 digest (32 bytes) of a byte list. -/
def sha256Bytes (msg : List Nat) : List Nat :=
  let hs := (chunks64 (sha256Pad msg)).foldl
    (fun hs block => sha256Compress hs (sha256Schedule (toWords32 block)))
    sha256H0
  hs.foldr (fun h acc => beBytes4 h ++ acc) []

/-- The standard Base64 alphabet. -/
def base64Alphabet : List Char :=
  "ABCDEFGHIJKLMNOPQRSTUVWXYZabcdefghijklmnopqrstuvwxyz0123456789+/".data

/-- The Base64 character of a 6-bit value. -/
def b64Char (n : Nat) : Char := base64Alphabet.getD n 'A'

/-- Standard Base64 encoding of a byte list, with `=` padding. -/
def base64Encode : List Nat → List Char
  | [] => []
  | [b0] => [b64Char (b0 >>> 2), b64Char ((b0 % 4) <<< 4), '=', '=']
  | [b0, b1] =>
    [b64Char (b0 >>> 2), b64Char (((b0 % 4) <<< 4) ||| (b1 >>> 4)),
     b64Char ((b1 % 16) <<< 2), '=']
  | b0 :: b1 :: b2 :: rest =>
    b64Char (b0 >>> 2) :: b64Char (((b0 % 4) <<< 4) ||| (b1 >>> 4)) ::
    b64Char (((b1 % 16) <<< 2) ||| (b2 >>> 6)) :: b64Char (b2 % 64) ::
    base64Encode rest

/-- The UTF-8 bytes of a string, as natural numbers. -/
def utf8Bytes (s : String) : List Nat := s.toUTF8.data.toList.map UInt8.toNat

/-- `crypto.createHash('sha256').update(s).digest('base64')`. -/
def sha256Base64 (s : String) : String :=
  ⟨base64Encode (sha256Bytes (utf8Bytes s))⟩

/-! ## Data model

`User`, `Role`, `Permission` follow the TypeORM models (`src/src/models`):
relation fields are optional (they are `undefined` unless eagerly loaded),
`password` and `organizationId` are nullable. -/

/-- A permission record (`src/src/models/permission.ts`): named atomic capability. -/
structure Permission where
  name : String
deriving DecidableEq, Repr

/-- A role record (`src/src/models/role.ts`): named grouping with a
many-to-many `permissions` relation (absent unless loaded). -/
structure Role where
  name : String
  permissions : Option (List Permission)
deriving DecidableEq, Repr

/-- A user record: identity attributes plus the many-to-many `roles`
relation (absent unless loaded). -/
structure User where
  id : String
  email : String
  firstName : String
  lastName : String
  password : Option String
  organizationId : Option String
  roles : Option (List Role)
deriving DecidableEq, Repr

/-- The `jwt` section of `src/src/config/config.ts`: all plain strings, with
`""` standing for unconfigured key material. -/
structure JwtConfig where
  privateKey : String
  publicKey : String
  expiresIn : String
  issuer : String
  audience : String
deriving DecidableEq, Repr

/-! ## Role Resolver (`UserAuthService.resolveUserAuthInfo`) -/

/-- The resolved authorization info returned by `resolveUserAuthInfo`
(`UserAuthInfo` interface in `src/unnamed/part_027`). -/
structure UserAuthInfo where
  userId : String
  email : String
  name : String
  organizationId : Option String
  roles : List String
  permissions : List String
deriving DecidableEq, Repr

/-- Insertion into a JavaScript `Set` serialised as its insertion-order list:
append the element unless already present. -/
def setAdd (l : List String) (s : String) : List String :=
  if l.contains s then l else l ++ [s]

/-- `UserAuthService.resolveUserAuthInfo` (src/unnamed/part_027, lines 27–57).
The repository's `findUserWithRoles` is passed as a function; the permission
set is accumulated in a `Set` (insertion-order list) over the nested loops,
and `Array.from` returns it in insertion order. -/
def resolveUserAuthInfo (findUserWithRoles : String → Option User)
    (userId : String) : Option UserAuthInfo :=
  match findUserWithRoles userId with
  | none => none
  | some user =>
    let roles := (user.roles.map (List.map Role.name)).getD []
    let permissionSet :=
      (user.roles.getD []).foldl
        (fun acc role =>
          (role.permissions.getD []).foldl
            (fun acc2 permission => setAdd acc2 permission.name) acc)
        []
    some
      { userId := user.id
        email := user.email
        name := jsTrim (user.firstName ++ " " ++ user.lastName)
        organizationId := user.organizationId
        roles := roles
        permissions := permissionSet }

/-! ## Token Issuer (`AuthService.generateToken`) -/

/-- The claims set built by `generateToken` (authService.ts lines 129–141).
`exp` is `Option Int` because the lifetime arithmetic can produce `NaN`
(modelled as `none`). -/
structure JwtClaims where
  sub : String
  iss : String
  aud : String
  iat : Int
  exp : Option Int
  nbf : Int
  org_id : Option String
  roles : List String
  permissions : List String
  email : String
  name : String
deriving DecidableEq, Repr

/-- Modelled from the spec: a signed credential is a three-part structure
whose header carries the algorithm and whose signature binds the signing key
to the payload (perfect-cryptography abstraction: the signature is recorded
as the signing key itself, and verification compares key pairs). -/
structure Jwt where
  alg : String
  payload : JwtClaims
  sigKey : String
deriving DecidableEq, Repr

/-- Modelled from the spec: `jwt.sign(payload, privateKey, {algorithm})` of
the `jsonwebtoken` library — produce the credential signed with the given
private key, asserting the given algorithm. -/
def jwtSign (payload : JwtClaims) (privateKey : String) (alg : String) : Jwt :=
  ⟨alg, payload, privateKey⟩

/-- The lifetime-parsing branch of `generateToken`
(authService.ts lines 118–127).  `none` models the JavaScript `NaN`. -/
def parseExpiresIn (expiresIn : String) : Option Int :=
  if jsEndsWith expiresIn "h" then (jsParseInt expiresIn).map (· * 3600)
  else if jsEndsWith expiresIn "d" then (jsParseInt expiresIn).map (· * 24 * 3600)
  else if jsEndsWith expiresIn "m" then (jsParseInt expiresIn).map (· * 60)
  else
    match jsParseInt expiresIn with
    | some n => if n = 0 then some 3600 else some n
    | none => some 3600

/-- `AuthService.generateToken` (authService.ts lines 106–146).  The role
resolver is passed as a function, `now` is `Math.floor(Date.now() / 1000)`,
and thrown `Error`s become `Except.error` of their message.  `now + NaN`
propagates to an `exp` of `none`. -/
def generateToken (cfg : JwtConfig) (resolveAuthInfo : String → Option UserAuthInfo)
    (now : Int) (userId : String) : Except String Jwt :=
  if cfg.privateKey = "" then .error "JWT private key not configured"
  else
    match resolveAuthInfo userId with
    | none => .error "User not found"
    | some authInfo =>
      let expiresInSeconds := parseExpiresIn cfg.expiresIn
      let payload : JwtClaims :=
        { sub := authInfo.userId
          iss := cfg.issuer
          aud := cfg.audience
          iat := now
          exp := expiresInSeconds.map (now + ·)
          nbf := now
          org_id := authInfo.organizationId
          roles := authInfo.roles
          permissions := authInfo.permissions
          email := authInfo.email
          name := authInfo.name }
      .ok (jwtSign payload cfg.privateKey "RS256")

/-! ## Token Verifier / Authorization Guard (`middlewares/auth.ts`) -/

/-- Modelled from the spec: `jwt.verify(token, key, {algorithms}, cb)` of the
`jsonwebtoken` library.  `decodeCompact` parses the compact serialisation
(malformed input yields `none`); `publicOf` is the RSA pairing sending a
private-key PEM to its public-key PEM.  Verification requires the asserted
algorithm to be among the allowed ones, the signature to have been produced
by the private half of the given public key, `nbf ≤ now`, and `now < exp`;
the error strings are the library's diagnostic messages. -/
def jwtVerify (decodeCompact : String → Option Jwt) (publicOf : String → String)
    (tokenStr : String) (key : String) (algorithms : List String) (now : Int) :
    Except String JwtClaims :=
  match decodeCompact tokenStr with
  | none => .error "jwt malformed"
  | some tok =>
    if ¬ algorithms.contains tok.alg then .error "invalid algorithm"
    else if publicOf tok.sigKey ≠ key then .error "invalid signature"
    else if now < tok.payload.nbf then .error "jwt not active"
    else
      match tok.payload.exp with
      | some e => if e ≤ now then .error "jwt expired" else .ok tok.payload
      | none => .ok tok.payload

/-- An incoming request, reduced to its `Authorization` header. -/
structure AuthRequest where
  authorization : Option String
deriving DecidableEq, Repr

/-- Outcome of the `authenticateToken` middleware: an HTTP response with the
given status and JSON body fields, or a call to `next` with the decoded
claims attached to `req.user`. -/
inductive AuthOutcome where
  | respond (status : Nat) (message : String) (error : Option String)
  | nextWith (user : JwtClaims)
deriving DecidableEq, Repr

/-- `authenticateToken` (src/unnamed/part_013, lines 43–79): extract the
bearer credential, then verify it with the configured public key restricted
to RS256. -/
def authenticateToken (decodeCompact : String → Option Jwt) (publicOf : String → String)
    (cfg : JwtConfig) (now : Int) (req : AuthRequest) : AuthOutcome :=
  match req.authorization with
  | none => .respond 401 "Missing or invalid token" none
  | some authHeader =>
    if ¬ jsStartsWith authHeader "Bearer " then
      .respond 401 "Missing or invalid token" none
    else
      let token := jsSubstringFrom authHeader 7
      if cfg.publicKey = "" then .respond 500 "JWT public key not configured" none
      else
        match jwtVerify decodeCompact publicOf token cfg.publicKey ["RS256"] now with
        | .error e => .respond 401 "Invalid token" (some e)
        | .ok decoded => .nextWith decoded

/-- Outcome of the `requirePermissions` guard: an HTTP response (with the
required permission list echoed in the 403 body) or a call to `next`. -/
inductive GuardOutcome where
  | respond (status : Nat) (message : String) (required : Option (List String))
  | next
deriving DecidableEq, Repr

/-- `requirePermissions` (src/unnamed/part_013, lines 81–101): fail closed
when no claims were attached; otherwise require every listed permission to be
present in the credential's permission claim. -/
def requirePermissions (requiredPermissions : List String)
    (user : Option JwtClaims) : GuardOutcome :=
  match user with
  | none => .respond 401 "User not authenticated" none
  | some u =>
    let userPermissions := u.permissions
    let hasPermission := requiredPermissions.all (fun perm => userPermissions.contains perm)
    if ¬ hasPermission then
      .respond 403 "Insufficient permissions" (some requiredPermissions)
    else .next

/-! ## Key Material Provider (`JwksController`, `utils/jwt.ts`) -/

/-- A JSON Web Key as exposed by the JWKS endpoint. -/
structure Jwk where
  kty : String
  use : String
  kid : String
  alg : String
  n : String
  e : String
deriving DecidableEq, Repr

/-- `JwksController.pemToJwk` (jwksController.ts lines 26–38).  The export of
the public key through Node's `crypto` module is passed as a function
returning the optional `kty`, `n`, `e` fields of the exported JWK. -/
def pemToJwk (exportJwk : String → Option String × Option String × Option String)
    (publicKeyPem : String) (kid : String) : Jwk :=
  let (kty, n, e) := exportJwk publicKeyPem
  { kty := jsOr kty "RSA"
    use := "sig"
    kid := kid
    alg := "RS256"
    n := jsOr n ""
    e := jsOr e "" }

/-- The inline `kid` derivation in `JwksController.getJwks`
(jwksController.ts lines 52–56): first 8 characters of the Base64-encoded
SHA-256 hash of the public-key PEM. -/
def jwksKid (publicKeyPem : String) : String :=
  jsSubstringTo (sha256Base64 publicKeyPem) 8

/-- `generateKid` (src/src/utils/jwt.ts lines 10–13). -/
def generateKid (publicKey : String) : String :=
  jsSubstringTo (sha256Base64 publicKey) 8

/-- Outcome of the JWKS endpoint: the key set, or an error response. -/
inductive JwksOutcome where
  | keys (ks : List Jwk)
  | err (status : Nat) (error : String)
deriving DecidableEq, Repr

/-- `JwksController.getJwks` (jwksController.ts lines 44–66). -/
def getJwks (exportJwk : String → Option String × Option String × Option String)
    (cfg : JwtConfig) : JwksOutcome :=
  if cfg.publicKey = "" then .err 500 "JWKS endpoint not available"
  else
    let kid := jwksKid cfg.publicKey
    .keys [pemToJwk exportJwk cfg.publicKey kid]

/-! ## `AuthService.login` -/

/-- An application error carrying the HTTP status used by the error handler
(`AppError` in `src/src/middlewares/errorHandler.ts`); `internal` is an
ordinary thrown `Error` (no status, handled as 500). -/
inductive AppErr where
  | app (message : String) (status : Nat)
  | internal (message : String)
deriving DecidableEq, Repr

/-- `AuthService.login` (authService.ts lines 74–104).  The repository lookup,
the bcrypt comparison and token generation are passed as functions; the
success value pairs the found user with the issued token.  A user whose
`password` column is `null` (or `""`, falsy in JavaScript) is rejected before
any bcrypt comparison. -/
def login (findUserByEmail : String → Option User)
    (bcryptCompare : String → String → Bool)
    (genToken : String → Except String Jwt)
    (email password : String) : Except AppErr (User × Jwt) :=
  match findUserByEmail email with
  | none => .error (.app "Invalid credentials" 401)
  | some user =>
    if jsFalsyStr user.password then .error (.app "Invalid credentials" 401)
    else if ¬ bcryptCompare password (user.password.getD "") then
      .error (.app "Invalid credentials" 401)
    else
      match genToken user.id with
      | .error e => .error (.internal e)
      | .ok token => .ok (user, token)

/-! ## Concrete fixtures used by witnesses and counterexamples -/

/-- A role granting `users:read` and `users:manage` (spec §8 scenario). -/
def sampleRoleAdmin : Role := ⟨"org_admin", some [⟨"users:read"⟩, ⟨"users:manage"⟩]⟩

/-- A role granting `projects:read` and (overlapping) `users:read`. -/
def sampleRoleAnalyst : Role := ⟨"analyst", some [⟨"projects:read"⟩, ⟨"users:read"⟩]⟩

/-- A stored user holding both sample roles. -/
def sampleUser : User :=
  { id := "u1", email := "ada@example.com", firstName := "Ada", lastName := "Lovelace",
    password := some "bcrypt-hash", organizationId := some "org9",
    roles := some [sampleRoleAdmin, sampleRoleAnalyst] }

/-- The same user with the role list in the opposite iteration order. -/
def sampleUserSwapped : User := { sampleUser with roles := some [sampleRoleAnalyst, sampleRoleAdmin] }

/-- A repository resolving only `sampleUser`. -/
def sampleRepo : String → Option User := fun uid => if uid = "u1" then some sampleUser else none

/-- A repository resolving only `sampleUserSwapped`. -/
def sampleRepoSwapped : String → Option User :=
  fun uid => if uid = "u1" then some sampleUserSwapped else none

/-- A fully configured `jwt` configuration section. -/
def sampleCfg : JwtConfig :=
  { privateKey := "PRIV", publicKey := "PUB", expiresIn := "1h",
    issuer := "https://issuer.example", audience := "backboard" }

/-- The role resolver wired to `sampleRepo`. -/
def sampleResolver : String → Option UserAuthInfo := resolveUserAuthInfo sampleRepo

/-- The RSA pairing for the sample key pair. -/
def samplePublicOf : String → String := fun s => if s = "PRIV" then "PUB" else s ++ "-pub"

/-- The claims issued for `sampleUser` at epoch second 100 with a 1h lifetime. -/
def sampleClaims : JwtClaims :=
  { sub := "u1", iss := "https://issuer.example", aud := "backboard",
    iat := 100, exp := some 3700, nbf := 100, org_id := some "org9",
    roles := ["org_admin", "analyst"],
    permissions := ["users:read", "users:manage", "projects:read"],
    email := "ada@example.com", name := "Ada Lovelace" }

/-- The credential issued for `sampleUser` at epoch second 100. -/
def sampleToken : Jwt := ⟨"RS256", sampleClaims, "PRIV"⟩

/-- A compact serialisation for the sample token. -/
def sampleEncode : Jwt → String := fun _ => "signed-token"

/-- The matching compact parser: recovers `sampleToken` from its serialisation. -/
def sampleDecode : String → Option Jwt :=
  fun s => if s = "signed-token" then some sampleToken else none

/-- A JWK export for the sample public key. -/
def sampleExport : String → Option String × Option String × Option String :=
  fun _ => (some "RSA", some "mod64", some "AQAB")

/-- A correctly signed credential whose `exp` (150) is already in the past at
verification time 99999. -/
def expiredToken : Jwt := ⟨"RS256", { sampleClaims with exp := some 150 }, "PRIV"⟩

/-- A credential asserting the symmetric `HS256` algorithm. -/
def wrongAlgToken : Jwt := ⟨"HS256", sampleClaims, "PRIV"⟩

/-- A compact parser recognising the two bad credentials above. -/
def badDecode : String → Option Jwt :=
  fun s =>
    if s = "expired-token" then some expiredToken
    else if s = "hs256-token" then some wrongAlgToken
    else none

/-- The auth info resolved for `sampleUser`. -/
def sampleInfo : UserAuthInfo :=
  { userId := "u1", email := "ada@example.com", name := "Ada Lovelace",
    organizationId := some "org9", roles := ["org_admin", "analyst"],
    permissions := ["users:read", "users:manage", "projects:read"] }

/-- The auth info resolved for `sampleUserSwapped` (roles iterated in the
opposite order: same permission set, different first-seen order). -/
def sampleInfoSwapped : UserAuthInfo :=
  { sampleInfo with
    roles := ["analyst", "org_admin"],
    permissions := ["projects:read", "users:read", "users:manage"] }

/-- Verified claims carrying only permission `A`. -/
def guardUserA : JwtClaims := { sampleClaims with permissions := ["A"] }

/-- Verified claims carrying permissions `A`, `B`, `C`. -/
def guardUserABC : JwtClaims := { sampleClaims with permissions := ["A", "B", "C"] }

/-! ## Helper lemmas -/

theorem setAdd_mem (l : List String) (s a : String) :
    a ∈ setAdd l s ↔ a ∈ l ∨ a = s := by
  unfold setAdd
  split
  · rename_i h
    have hs : s ∈ l := by simpa using h
    constructor
    · exact Or.inl
    · rintro (h' | rfl) <;> [exact h'; exact hs]
  · simp [List.mem_append]

theorem setAdd_nodup (l : List String) (s : String) (h : l.Nodup) :
    (setAdd l s).Nodup := by
  unfold setAdd
  split
  · exact h
  · rename_i hc
    have hs : s ∉ l := by simpa using hc
    simp [List.nodup_append, h, hs]

theorem permFold_mem (ps : List Permission) (acc : List String) (a : String) :
    a ∈ ps.foldl (fun acc2 permission => setAdd acc2 permission.name) acc ↔
      a ∈ acc ∨ ∃ q ∈ ps, q.name = a := by
  induction ps generalizing acc with
  | nil => simp
  | cons p ps ih =>
    rw [List.foldl_cons, ih]
    rw [setAdd_mem]
    constructor
    · rintro ((h | h) | ⟨q, hq, rfl⟩)
      · exact Or.inl h
      · exact Or.inr ⟨p, by simp, h.symm⟩
      · exact Or.inr ⟨q, by simp [hq], rfl⟩
    · rintro (h | ⟨q, hq, rfl⟩)
      · exact Or.inl (Or.inl h)
      · rcases List.mem_cons.mp hq with rfl | hq
        · exact Or.inl (Or.inr rfl)
        · exact Or.inr ⟨q, hq, rfl⟩

theorem permFold_nodup (ps : List Permission) (acc : List String) (h : acc.Nodup) :
    (ps.foldl (fun acc2 permission => setAdd acc2 permission.name) acc).Nodup := by
  induction ps generalizing acc with
  | nil => exact h
  | cons p ps ih => exact ih _ (setAdd_nodup _ _ h)

theorem roleFold_mem (rs : List Role) (acc : List String) (a : String) :
    a ∈ rs.foldl
        (fun acc role =>
          (role.permissions.getD []).foldl
            (fun acc2 permission => setAdd acc2 permission.name) acc) acc ↔
      a ∈ acc ∨ ∃ r ∈ rs, ∃ q ∈ r.permissions.getD [], q.name = a := by
  induction rs generalizing acc with
  | nil => simp
  | cons r rs ih =>
    rw [List.foldl_cons, ih, permFold_mem]
    constructor
    · rintro ((h | ⟨q, hq, rfl⟩) | ⟨r', hr', hq⟩)
      · exact Or.inl h
      · exact Or.inr ⟨r, by simp, q, hq, rfl⟩
      · exact Or.inr ⟨r', by simp [hr'], hq⟩
    · rintro (h | ⟨r', hr', hq⟩)
      · exact Or.inl (Or.inl h)
      · rcases List.mem_cons.mp hr' with rfl | hr'
        · exact Or.inl (Or.inr hq)
        · exact Or.inr ⟨r', hr', hq⟩

theorem roleFold_nodup (rs : List Role) (acc : List String) (h : acc.Nodup) :
    (rs.foldl
        (fun acc role =>
          (role.permissions.getD []).foldl
            (fun acc2 permission => setAdd acc2 permission.name) acc) acc).Nodup := by
  induction rs generalizing acc with
  | nil => exact h
  | cons r rs ih => exact ih _ (permFold_nodup _ _ h)

theorem resolveUserAuthInfo_eq (repo : String → Option User) (uid : String)
    (u : User) (hu : repo uid = some u) :
    resolveUserAuthInfo repo uid = some
      { userId := u.id
        email := u.email
        name := jsTrim (u.firstName ++ " " ++ u.lastName)
        organizationId := u.organizationId
        roles := (u.roles.map (List.map Role.name)).getD []
        permissions :=
          (u.roles.getD []).foldl
            (fun acc role =>
              (role.permissions.getD []).foldl
                (fun acc2 permission => setAdd acc2 permission.name) acc) [] } := by
  unfold resolveUserAuthInfo
  rw [hu]

/-! ## Claim theorems -/

/-- C2: for every stored user with roles granting permission sets P1..Pn,
`resolveUserAuthInfo(userId).permissions` is the de-duplicated union of the
P1..Pn (each permission name appears exactly once), and the resulting set —
membership, not order — does not depend on the iteration order of the user's
roles. -/
theorem resolveUserAuthInfo_permissions_union
    (repo : String → Option User) (uid : String) (u : User) (info : UserAuthInfo)
    (hu : repo uid = some u)
    (hres : resolveUserAuthInfo repo uid = some info) :
    info.permissions.Nodup ∧
    (∀ p, p ∈ info.permissions ↔
      ∃ r ∈ u.roles.getD [], ∃ q ∈ r.permissions.getD [], q.name = p) ∧
    (∀ (repo' : String → Option User) (uid' : String) (u' : User) (info' : UserAuthInfo),
      repo' uid' = some u' → resolveUserAuthInfo repo' uid' = some info' →
      List.Perm (u'.roles.getD []) (u.roles.getD []) →
      ∀ p, p ∈ info'.permissions ↔ p ∈ info.permissions) := by
  rw [resolveUserAuthInfo_eq repo uid u hu] at hres
  obtain rfl := (Option.some.inj hres).symm
  refine ⟨roleFold_nodup _ _ (by simp), fun p => ?_, ?_⟩
  · rw [roleFold_mem]
    simp
  · intro repo' uid' u' info' hu' hres' hperm p
    rw [resolveUserAuthInfo_eq repo' uid' u' hu'] at hres'
    obtain rfl := (Option.some.inj hres').symm
    rw [roleFold_mem, roleFold_mem]
    simp only [List.not_mem_nil, false_or]
    constructor
    · rintro ⟨r, hr, hq⟩
      exact ⟨r, hperm.mem_iff.mp hr, hq⟩
    · rintro ⟨r, hr, hq⟩
      exact ⟨r, hperm.mem_iff.mpr hr, hq⟩

/-- Witness for C2: the spec §8 scenario — `org_admin → {users:read,
users:manage}`, `analyst → {projects:read, users:read}`; the resolved
permissions are three de-duplicated names, and swapping the role order
yields the same set. -/
theorem resolveUserAuthInfo_permissions_union_witness :
    sampleInfo.permissions.Nodup ∧
    ("users:read" ∈ sampleInfo.permissions ↔
      ∃ r ∈ sampleUser.roles.getD [], ∃ q ∈ r.permissions.getD [], q.name = "users:read") ∧
    ("projects:read" ∈ sampleInfoSwapped.permissions ↔ "projects:read" ∈ sampleInfo.permissions) := by
  have h := resolveUserAuthInfo_permissions_union sampleRepo "u1" sampleUser sampleInfo
    (by decide) (by decide)
  exact ⟨h.1, h.2.1 "users:read",
    h.2.2 sampleRepoSwapped "u1" sampleUserSwapped sampleInfoSwapped
      (by decide) (by decide) (by decide) "projects:read"⟩

/-- C3: against an authenticated request carrying permission set P, the guard
`requirePermissions(R)` calls `next` iff every permission of R is in P
(logical AND); otherwise it responds 403 with the required set R in the
response body. -/
theorem requirePermissions_subset_check (required : List String) (u : JwtClaims) :
    (requirePermissions required (some u) = .next ↔ ∀ p ∈ required, p ∈ u.permissions) ∧
    ((¬ ∀ p ∈ required, p ∈ u.permissions) →
      requirePermissions required (some u) =
        .respond 403 "Insufficient permissions" (some required)) := by
  have hall : (required.all fun perm => u.permissions.contains perm) = true ↔
      ∀ p ∈ required, p ∈ u.permissions := by
    simp [List.all_eq_true]
  by_cases hmem : ∀ p ∈ required, p ∈ u.permissions
  · have hb : (required.all fun perm => u.permissions.contains perm) = true := hall.mpr hmem
    have hout : requirePermissions required (some u) = .next := by
      simp only [requirePermissions]
      rw [hb]
      simp
    exact ⟨⟨fun _ => hmem, fun _ => hout⟩, fun hc => absurd hmem hc⟩
  · have hb : (required.all fun perm => u.permissions.contains perm) = false := by
      cases hbb : required.all fun perm => u.permissions.contains perm with
      | false => rfl
      | true => exact absurd (hall.mp hbb) hmem
    have hout : requirePermissions required (some u) =
        .respond 403 "Insufficient permissions" (some required) := by
      simp only [requirePermissions]
      rw [hb]
      simp
    refine ⟨⟨fun h => ?_, fun h => absurd h hmem⟩, fun _ => hout⟩
    rw [hout] at h
    exact GuardOutcome.noConfusion h

/-- Witness for C3: required `{A,B}` against a credential holding `{A}` is
Forbidden with the required set echoed; against `{A,B,C}` it authorizes. -/
theorem requirePermissions_subset_check_witness :
    requirePermissions ["A", "B"] (some guardUserA) =
      .respond 403 "Insufficient permissions" (some ["A", "B"]) ∧
    requirePermissions ["A", "B"] (some guardUserABC) = .next :=
  ⟨(requirePermissions_subset_check ["A", "B"] guardUserA).2 (by decide),
   (requirePermissions_subset_check ["A", "B"] guardUserABC).1.mpr (by decide)⟩

/-- Counterexample for C4: the one-hour fallback does not cover suffixed but
unparseable lifetimes — `"xh"` yields `NaN` (modelled `none`), not 3600 —
and `"0h"` yields a zero-length lifetime. -/
theorem parseExpiresIn_fallback_counterexample :
    parseExpiresIn "xh" = none ∧ parseExpiresIn "xh" ≠ some 3600 ∧
    parseExpiresIn "0h" = some 0 := by
  decide

/-- C4 (amended): a trailing `h`/`d`/`m` multiplies `parseInt` of the string
by 3600/86400/60, with `NaN` (no leading digits) and `0` propagating rather
than falling back; the 3600-second fallback applies exactly to suffix-less
strings whose `parseInt` is `NaN` or `0`, while other bare integers
(including negative ones) are used as-is. -/
theorem parseExpiresIn_amended (s : String) :
    (jsEndsWith s "h" = true →
      parseExpiresIn s = (jsParseInt s).map (· * 3600)) ∧
    (jsEndsWith s "h" = false → jsEndsWith s "d" = true →
      parseExpiresIn s = (jsParseInt s).map (· * 24 * 3600)) ∧
    (jsEndsWith s "h" = false → jsEndsWith s "d" = false → jsEndsWith s "m" = true →
      parseExpiresIn s = (jsParseInt s).map (· * 60)) ∧
    (jsEndsWith s "h" = false → jsEndsWith s "d" = false → jsEndsWith s "m" = false →
      ((jsParseInt s = none ∨ jsParseInt s = some 0) → parseExpiresIn s = some 3600) ∧
      (∀ n : Int, jsParseInt s = some n → n ≠ 0 → parseExpiresIn s = some n)) := by
  refine ⟨fun h1 => ?_, fun h1 h2 => ?_, fun h1 h2 h3 => ?_, fun h1 h2 h3 => ⟨fun h4 => ?_, fun n hn hn0 => ?_⟩⟩
  · simp [parseExpiresIn, h1]
  · simp [parseExpiresIn, h1, h2]
  · simp [parseExpiresIn, h1, h2, h3]
  · rcases h4 with h4 | h4 <;> simp [parseExpiresIn, h1, h2, h3, h4]
  · simp [parseExpiresIn, h1, h2, h3, hn, hn0]

/-- Witness for C4 (amended): `"2h"` parses to 7200 s, `"garbage"` falls back
to 3600 s, `"45"` is 45 s, `"30m"` is 1800 s. -/
theorem parseExpiresIn_amended_witness :
    parseExpiresIn "2h" = some 7200 ∧ parseExpiresIn "garbage" = some 3600 ∧
    parseExpiresIn "45" = some 45 ∧ parseExpiresIn "30m" = some 1800 :=
  ⟨((parseExpiresIn_amended "2h").1 (by decide)).trans (by decide),
   ((parseExpiresIn_amended "garbage").2.2.2 (by decide) (by decide) (by decide)).1
     (Or.inl (by decide)),
   ((parseExpiresIn_amended "45").2.2.2 (by decide) (by decide) (by decide)).2
     45 (by decide) (by decide),
   (((parseExpiresIn_amended "30m").2.2.1 (by decide) (by decide) (by decide))).trans (by decide)⟩

/-- C5: every successfully issued credential carries exactly the constructed
claims — `sub` the resolved user id, `iss`/`aud` from configuration,
`iat = now`, `nbf = iat`, `exp = iat +` the parsed lifetime, `org_id` the
user's organization id or null, `roles`/`permissions` the resolved name
lists, plus the resolved email and display name — signed RS256 with the
configured private key. -/
theorem generateToken_claims (cfg : JwtConfig) (resolver : String → Option UserAuthInfo)
    (now : Int) (uid : String) (info : UserAuthInfo) (lifetime : Int) (tok : Jwt)
    (hk : cfg.privateKey ≠ "")
    (hres : resolver uid = some info)
    (hL : parseExpiresIn cfg.expiresIn = some lifetime)
    (htok : generateToken cfg resolver now uid = .ok tok) :
    tok.payload.sub = info.userId ∧ tok.payload.iss = cfg.issuer ∧
    tok.payload.aud = cfg.audience ∧ tok.payload.iat = now ∧
    tok.payload.nbf = now ∧ tok.payload.exp = some (now + lifetime) ∧
    tok.payload.org_id = info.organizationId ∧ tok.payload.roles = info.roles ∧
    tok.payload.permissions = info.permissions ∧ tok.payload.email = info.email ∧
    tok.payload.name = info.name ∧ tok.alg = "RS256" ∧ tok.sigKey = cfg.privateKey := by
  rw [generateToken, if_neg hk, hres] at htok
  simp only [hL, Option.map_some'] at htok
  obtain rfl := (Except.ok.inj htok).symm
  exact ⟨rfl, rfl, rfl, rfl, rfl, rfl, rfl, rfl, rfl, rfl, rfl, rfl, rfl⟩

/-- Witness for C5: issuing for `sampleUser` at epoch second 100 with a 1h
lifetime produces exactly `sampleClaims`. -/
theorem generateToken_claims_witness :
    sampleToken.payload.sub = sampleInfo.userId ∧
    sampleToken.payload.iat = (100 : Int) ∧
    sampleToken.payload.nbf = (100 : Int) ∧
    sampleToken.payload.exp = some (100 + 3600 : Int) ∧
    sampleToken.payload.permissions = sampleInfo.permissions := by
  have h := generateToken_claims sampleCfg sampleResolver 100 "u1" sampleInfo 3600
    sampleToken (by decide) (by decide) (by decide) rfl
  exact ⟨h.1, h.2.2.2.1, h.2.2.2.2.1, h.2.2.2.2.2.1, h.2.2.2.2.2.2.2.2.1⟩

/-- C8: when no private key material is configured, token issuance fails with
the configuration error before any role resolution or signing — the outcome
is the same for every resolver (the resolver is never consulted) and no
credential is produced. -/
theorem generateToken_requires_private_key (cfg : JwtConfig)
    (resolver : String → Option UserAuthInfo) (now : Int) (uid : String)
    (h : cfg.privateKey = "") :
    generateToken cfg resolver now uid = .error "JWT private key not configured" ∧
    ∀ tok, generateToken cfg resolver now uid ≠ .ok tok := by
  rw [generateToken, if_pos h]
  exact ⟨rfl, fun tok hc => Except.noConfusion hc⟩

/-- Witness for C8: with an empty private key, issuance fails with the
configuration error even though the resolver would succeed. -/
theorem generateToken_requires_private_key_witness :
    generateToken { sampleCfg with privateKey := "" } sampleResolver 100 "u1" =
      .error "JWT private key not configured" ∧
    generateToken { sampleCfg with privateKey := "" } sampleResolver 100 "u1" ≠
      .ok sampleToken :=
  ⟨(generateToken_requires_private_key _ sampleResolver 100 "u1" rfl).1,
   (generateToken_requires_private_key _ sampleResolver 100 "u1" rfl).2 sampleToken⟩

/-- C9: when the Authorization header is absent or does not begin with the
`Bearer ` scheme prefix, the middleware responds 401 with the same message
"Missing or invalid token" in both cases, for every key configuration and
compact parser (no verification is performed). -/
theorem authenticateToken_extraction_failure (decodeCompact : String → Option Jwt)
    (publicOf : String → String) (cfg : JwtConfig) (now : Int) (req : AuthRequest)
    (h : req.authorization = none ∨
      ∃ hdr, req.authorization = some hdr ∧ jsStartsWith hdr "Bearer " = false) :
    authenticateToken decodeCompact publicOf cfg now req =
      .respond 401 "Missing or invalid token" none := by
  rcases h with h | ⟨hdr, h, hpre⟩
  · simp [authenticateToken, h]
  · simp [authenticateToken, h, hpre]

/-- Witness for C9: a request with no Authorization header and one with the
malformed header `"token-without-bearer-prefix"` both get the same 401
response, even under a configuration whose parser and keys would verify. -/
theorem authenticateToken_extraction_failure_witness :
    authenticateToken sampleDecode samplePublicOf sampleCfg 200 ⟨none⟩ =
      .respond 401 "Missing or invalid token" none ∧
    authenticateToken sampleDecode samplePublicOf sampleCfg 200
        ⟨some "token-without-bearer-prefix"⟩ =
      .respond 401 "Missing or invalid token" none :=
  ⟨authenticateToken_extraction_failure sampleDecode samplePublicOf sampleCfg 200 ⟨none⟩
     (Or.inl rfl),
   authenticateToken_extraction_failure sampleDecode samplePublicOf sampleCfg 200
     ⟨some "token-without-bearer-prefix"⟩
     (Or.inr ⟨"token-without-bearer-prefix", rfl, by decide⟩)⟩

/-- Counterexample for C6: the client-visible outcome of a verification
failure is not uniform — the 401 body embeds the specific failure reason in
its `error` field, so an expired credential and an algorithm-confused
credential produce different response bodies. -/
theorem authenticateToken_uniformity_counterexample :
    authenticateToken badDecode samplePublicOf sampleCfg 99999
        ⟨some "Bearer expired-token"⟩ =
      .respond 401 "Invalid token" (some "jwt expired") ∧
    authenticateToken badDecode samplePublicOf sampleCfg 99999
        ⟨some "Bearer hs256-token"⟩ =
      .respond 401 "Invalid token" (some "invalid algorithm") ∧
    authenticateToken badDecode samplePublicOf sampleCfg 99999
        ⟨some "Bearer expired-token"⟩ ≠
      authenticateToken badDecode samplePublicOf sampleCfg 99999
        ⟨some "Bearer hs256-token"⟩ := by
  refine ⟨rfl, rfl, ?_⟩
  intro h
  exact absurd (Option.some.inj (AuthOutcome.respond.inj h).2.2) (by decide)

/-- C6 (amended): every verification failure — bad signature, wrong or
symmetric algorithm, expiry, not-yet-valid, malformed structure — yields a
401 whose `message` field is uniformly "Invalid token", never attaches
claims or calls `next`; the specific failure reason is embedded in the
response body's `error` field (so it is client-visible, not only
diagnostic). -/
theorem authenticateToken_invalid_uniform_message (decodeCompact : String → Option Jwt)
    (publicOf : String → String) (cfg : JwtConfig) (now : Int) (hdr e : String)
    (hpk : cfg.publicKey ≠ "")
    (hpre : jsStartsWith hdr "Bearer " = true)
    (hv : jwtVerify decodeCompact publicOf (jsSubstringFrom hdr 7) cfg.publicKey
        ["RS256"] now = .error e) :
    authenticateToken decodeCompact publicOf cfg now ⟨some hdr⟩ =
      .respond 401 "Invalid token" (some e) ∧
    ∀ u, authenticateToken decodeCompact publicOf cfg now ⟨some hdr⟩ ≠ .nextWith u := by
  have hout : authenticateToken decodeCompact publicOf cfg now ⟨some hdr⟩ =
      .respond 401 "Invalid token" (some e) := by
    simp [authenticateToken, hpre, hpk, hv]
  exact ⟨hout, fun u hc => by rw [hout] at hc; exact AuthOutcome.noConfusion hc⟩

/-- Witness for C6 (amended): an expired credential gets the uniform
"Invalid token" 401 with the reason in the `error` field, and `next` is not
reached. -/
theorem authenticateToken_invalid_uniform_message_witness :
    authenticateToken badDecode samplePublicOf sampleCfg 99999
        ⟨some "Bearer expired-token"⟩ =
      .respond 401 "Invalid token" (some "jwt expired") ∧
    authenticateToken badDecode samplePublicOf sampleCfg 99999
        ⟨some "Bearer expired-token"⟩ ≠ .nextWith sampleClaims := by
  have h := authenticateToken_invalid_uniform_message badDecode samplePublicOf sampleCfg
    99999 "Bearer expired-token" "jwt expired" (by decide) (by decide) rfl
  exact ⟨h.1, h.2 sampleClaims⟩

/-- C10: `login` produces the identical client-visible failure — `AppError`
with message "Invalid credentials" and status 401 — whether the email is
unknown, the stored user has no password hash (externally-authenticated
account), or the bcrypt comparison fails; the three outcomes are equal, so a
caller observing only the response cannot tell the cases apart. -/
theorem login_uniform_invalid_credentials (findUserByEmail : String → Option User)
    (bcryptCompare : String → String → Bool) (genToken : String → Except String Jwt)
    (email pw : String) :
    (findUserByEmail email = none →
      login findUserByEmail bcryptCompare genToken email pw =
        .error (.app "Invalid credentials" 401)) ∧
    (∀ u, findUserByEmail email = some u → jsFalsyStr u.password = true →
      login findUserByEmail bcryptCompare genToken email pw =
        .error (.app "Invalid credentials" 401)) ∧
    (∀ u hash, findUserByEmail email = some u → u.password = some hash → hash ≠ "" →
      bcryptCompare pw hash = false →
      login findUserByEmail bcryptCompare genToken email pw =
        .error (.app "Invalid credentials" 401)) := by
  refine ⟨fun h => ?_, fun u hu hp => ?_, fun u hash hu hp hne hbc => ?_⟩
  · simp [login, h]
  · simp [login, hu, hp]
  · have hfal : jsFalsyStr u.password = false := by simp [hp, jsFalsyStr, hne]
    simp [login, hu, hfal, hp, hbc]

/-- Witness for C10: the three failure modes — unknown email, passwordless
account, wrong password — all evaluate to the same 401 response. -/
theorem login_uniform_invalid_credentials_witness :
    login (fun _ => none) (fun _ _ => true) (fun _ => .error "unused") "ada@example.com" "pw" =
      .error (.app "Invalid credentials" 401) ∧
    login (fun _ => some { sampleUser with password := none }) (fun _ _ => true)
        (fun _ => .error "unused") "ada@example.com" "pw" =
      .error (.app "Invalid credentials" 401) ∧
    login (fun _ => some sampleUser) (fun _ _ => false)
        (fun _ => .error "unused") "ada@example.com" "pw" =
      .error (.app "Invalid credentials" 401) :=
  ⟨(login_uniform_invalid_credentials (fun _ => none) (fun _ _ => true)
      (fun _ => .error "unused") "ada@example.com" "pw").1 rfl,
   (login_uniform_invalid_credentials (fun _ => some { sampleUser with password := none })
      (fun _ _ => true) (fun _ => .error "unused") "ada@example.com" "pw").2.1
      { sampleUser with password := none } rfl (by decide),
   (login_uniform_invalid_credentials (fun _ => some sampleUser) (fun _ _ => false)
      (fun _ => .error "unused") "ada@example.com" "pw").2.2
      sampleUser "bcrypt-hash" rfl (by decide) (by decide) rfl⟩

/-- C7: the `kid` is a deterministic function of the public-key PEM — the
first 8 characters of the Base64-encoded SHA-256 hash — and the two
independent implementations (`generateKid` in the jwt utility and the inline
derivation used by `JwksController.getJwks`) agree on every PEM; the JWKS
endpoint exposes exactly that `kid` for the configured key. -/
theorem generateKid_agrees_with_jwks (pem : String)
    (exportJwk : String → Option String × Option String × Option String)
    (cfg : JwtConfig) (hpem : cfg.publicKey = pem) (hne : pem ≠ "") :
    generateKid pem = jwksKid pem ∧
    generateKid pem = jsSubstringTo (sha256Base64 pem) 8 ∧
    getJwks exportJwk cfg = .keys [pemToJwk exportJwk pem (generateKid pem)] := by
  refine ⟨rfl, rfl, ?_⟩
  rw [getJwks, hpem, if_neg hne]
  rfl

/-- Witness for C7: for a sample PEM the utility `kid` and the JWKS
endpoint's `kid` coincide. -/
theorem generateKid_agrees_with_jwks_witness :
    generateKid "PUB" = jwksKid "PUB" ∧
    getJwks sampleExport sampleCfg = .keys [pemToJwk sampleExport "PUB" (generateKid "PUB")] :=
  ⟨(generateKid_agrees_with_jwks "PUB" sampleExport sampleCfg rfl (by decide)).1,
   (generateKid_agrees_with_jwks "PUB" sampleExport sampleCfg rfl (by decide)).2.2⟩

theorem jsStartsWith_bearer (s : String) :
    jsStartsWith ("Bearer " ++ s) "Bearer " = true := by
  simp [jsStartsWith, String.data_append, List.isPrefixOf_iff_prefix]

theorem jsSubstringFrom_bearer (s : String) :
    jsSubstringFrom ("Bearer " ++ s) 7 = s := by
  simp [jsSubstringFrom, String.data_append]

/-- C1: a credential issued by `generateToken` for a user with a configured
RSA key pair, presented as a bearer header and checked by `authenticateToken`
against the public key that the JWKS endpoint exposes, verifies successfully
within its validity window, and the claims attached to the request context
equal those used at construction: subject, roles, permissions, organization,
email. -/
theorem token_roundtrip
    (decodeCompact : String → Option Jwt) (encodeCompact : Jwt → String)
    (publicOf : String → String)
    (exportJwk : String → Option String × Option String × Option String)
    (cfg : JwtConfig) (resolver : String → Option UserAuthInfo)
    (now tNow : Int) (uid : String) (info : UserAuthInfo) (lifetime : Int) (tok : Jwt)
    (hpriv : cfg.privateKey ≠ "")
    (hpub : cfg.publicKey = publicOf cfg.privateKey)
    (hpubne : cfg.publicKey ≠ "")
    (hres : resolver uid = some info)
    (hL : parseExpiresIn cfg.expiresIn = some lifetime)
    (htok : generateToken cfg resolver now uid = .ok tok)
    (hdec : decodeCompact (encodeCompact tok) = some tok)
    (h1 : now ≤ tNow) (h2 : tNow < now + lifetime) :
    authenticateToken decodeCompact publicOf cfg tNow
        ⟨some ("Bearer " ++ encodeCompact tok)⟩ = .nextWith tok.payload ∧
    tok.payload.sub = info.userId ∧ tok.payload.roles = info.roles ∧
    tok.payload.permissions = info.permissions ∧
    tok.payload.org_id = info.organizationId ∧ tok.payload.email = info.email ∧
    getJwks exportJwk cfg = .keys [pemToJwk exportJwk cfg.publicKey (jwksKid cfg.publicKey)] := by
  rw [generateToken, if_neg hpriv, hres] at htok
  simp only [hL, Option.map_some'] at htok
  obtain rfl := (Except.ok.inj htok).symm
  have hsig : publicOf (jwtSign
      { sub := info.userId, iss := cfg.issuer, aud := cfg.audience, iat := now,
        exp := some (now + lifetime), nbf := now, org_id := info.organizationId,
        roles := info.roles, permissions := info.permissions, email := info.email,
        name := info.name } cfg.privateKey "RS256").sigKey = cfg.publicKey := hpub.symm
  have hnb : ¬ (tNow < now) := not_lt.mpr h1
  have hex : ¬ (now + lifetime ≤ tNow) := not_le.mpr h2
  refine ⟨?_, rfl, rfl, rfl, rfl, rfl, ?_⟩
  · simp only [jwtSign] at hdec hsig
    simp [authenticateToken, jsStartsWith_bearer, jsSubstringFrom_bearer, hpubne,
      jwtVerify, hdec, jwtSign, hsig, hnb, hex]
  · rw [getJwks, if_neg hpubne]

/-- Witness for C1: the credential issued for `sampleUser` at second 100
round-trips through the middleware at second 200 with all claims intact, and
the JWKS endpoint exposes the verification key. -/
theorem token_roundtrip_witness :
    authenticateToken sampleDecode samplePublicOf sampleCfg 200
        ⟨some ("Bearer " ++ sampleEncode sampleToken)⟩ = .nextWith sampleToken.payload ∧
    sampleToken.payload.sub = sampleInfo.userId ∧
    sampleToken.payload.permissions = sampleInfo.permissions ∧
    getJwks sampleExport sampleCfg =
      .keys [pemToJwk sampleExport sampleCfg.publicKey (jwksKid sampleCfg.publicKey)] := by
  have h := token_roundtrip sampleDecode sampleEncode samplePublicOf sampleExport
    sampleCfg sampleResolver 100 200 "u1" sampleInfo 3600 sampleToken
    (by decide) rfl (by decide) (by decide) (by decide) rfl rfl
    (by decide) (by decide)
  exact ⟨h.1, h.2.1, h.2.2.2.1, h.2.2.2.2.2.2⟩
